import Mathlib

/-!
Verification of the chess-vision calibration pipeline.

This file gives a shallow embedding, in Lean 4, of the core geometric code of
the repository (src/calibration/grid_slice.py, src/calibration/manual_warp.py,
src/calibration/calibration.py) and proves, or refutes, the specified
properties of the grid decomposer, the rectifier, and the calibration
collection pass.  Machine floats in the source are modelled by exact rationals
(ℚ); every float computation the settled properties touch is exact in binary
floating point (all values are small integers or integer multiples of exact
steps), so the rational model is faithful on those inputs.
-/

namespace GridSlice

/-- `BOARD_N = 8` — board dimension (grid_slice.py). -/
def BOARD_N : ℕ := 8

/-- `OUTPUT_SIZE = 1024` — side of the canonical warped image (grid_slice.py). -/
def OUTPUT_SIZE : ℤ := 1024

/-- `MARGIN_PX = 136` — margin around the board region (grid_slice.py). -/
def MARGIN_PX : ℤ := 136

/-- Python's `round` (banker's rounding, half to even) followed by `int`,
modelling `int(round(x))` on an exact value. -/
def pyRound (q : ℚ) : ℤ :=
  let n := ⌊q⌋
  let frac := q - n
  if frac < 1/2 then n
  else if 1/2 < frac then n + 1
  else if n % 2 = 0 then n else n + 1

/-- `square_name` from grid_slice.py:
`real_file_idx = (BOARD_N - 1) - rank_idx`, `real_rank_idx = file_idx`,
name = `chr(ord('a') + real_file_idx)` ++ `str(real_rank_idx + 1)`. -/
def square_name (file_idx rank_idx : ℕ) : String :=
  let real_file_idx := (BOARD_N - 1) - rank_idx
  let real_rank_idx := file_idx
  (Char.ofNat (97 + real_file_idx)).toString ++ toString (real_rank_idx + 1)

/-- The 64 names produced by the slicing loop of `main`, in loop order
(`for file_idx in range(BOARD_N): for rank_idx in range(BOARD_N)`). -/
def allNames : List String :=
  (List.range BOARD_N).flatMap fun file_idx =>
    (List.range BOARD_N).map fun rank_idx => square_name file_idx rank_idx

/-- The standard algebraic label set {a1..h8}: file letter a–h then rank
digit 1–8, enumerated file-major. -/
def standardLabels : List String :=
  (List.range 8).flatMap fun f =>
    (List.range 8).map fun r =>
      (Char.ofNat (97 + f)).toString ++ toString (r + 1)

-- Board-region geometry of `main` (grid_slice.py), as a function of the
-- actual image height/width `h`/`w` (the config expects 1024 but the code
-- continues on other sizes).
/-- `y0 = MARGIN_PX`. -/
def y0 : ℤ := MARGIN_PX

/-- `y1 = h - MARGIN_PX`. -/
def y1 (h : ℤ) : ℤ := h - MARGIN_PX

/-- `board_h = y1 - y0`. -/
def board_h (h : ℤ) : ℤ := y1 h - y0

/-- `step_y = board_h / BOARD_N` (float division, modelled exactly). -/
def step_y (h : ℤ) : ℚ := (board_h h : ℚ) / (BOARD_N : ℚ)

/-- `img_rank = (BOARD_N - 1) - rank_idx`. -/
def img_rank (rank_idx : ℕ) : ℕ := (BOARD_N - 1) - rank_idx

/-- `x0 = MARGIN_PX`. -/
def x0 : ℤ := MARGIN_PX

/-- `x1 = w - MARGIN_PX`. -/
def x1 (w : ℤ) : ℤ := w - MARGIN_PX

/-- `ya = int(round(y0 + img_rank * step_y))`. -/
def ya (h : ℤ) (rank_idx : ℕ) : ℤ :=
  pyRound ((y0 : ℚ) + (img_rank rank_idx : ℚ) * step_y h)

/-- `yb = int(round(y0 + (img_rank + 1) * step_y))`. -/
def yb (h : ℤ) (rank_idx : ℕ) : ℤ :=
  pyRound ((y0 : ℚ) + ((img_rank rank_idx : ℚ) + 1) * step_y h)

end GridSlice

namespace ManualWarp

/-- `OUTPUT_SIZE = 1024` — final warped size (manual_warp.py). -/
def OUTPUT_SIZE : ℕ := 1024

/-- `MARGIN_PX = 136` — padding around the board inside the output
(manual_warp.py). -/
def MARGIN_PX : ℕ := 136

/-- `m = float(MARGIN_PX)` in the Enter branch of `main`. -/
def m : ℚ := (MARGIN_PX : ℚ)

/-- `s = float(OUTPUT_SIZE - 1)` in the Enter branch of `main`. -/
def s : ℚ := (OUTPUT_SIZE : ℚ) - 1

/-- The destination quadrilateral `dst` built by `main` (manual_warp.py):
`[[m, m], [s - m, m], [s - m, s - m], [m, s - m]]` in TL/TR/BR/BL order. -/
def dstQuad : Fin 4 → ℚ × ℚ :=
  ![(m, m), (s - m, m), (s - m, s - m), (m, s - m)]

/-- A 3×3 projective transform matrix (row-major entries), the result type of
`cv2.getPerspectiveTransform`. -/
structure Hom where
  h00 : ℚ
  h01 : ℚ
  h02 : ℚ
  h10 : ℚ
  h11 : ℚ
  h12 : ℚ
  h20 : ℚ
  h21 : ℚ
  h22 : ℚ
deriving DecidableEq

/-- The identity homography. -/
def idHom : Hom := ⟨1, 0, 0, 0, 1, 0, 0, 0, 1⟩

/-- Apply a homography to a 2D point: `(x, y) ↦ ((h00 x + h01 y + h02)/w,
(h10 x + h11 y + h12)/w)` with `w = h20 x + h21 y + h22`.  (ℚ division by a
zero denominator yields 0; valid transforms never hit that case on the board
region.) -/
def applyHom (M : Hom) (p : ℚ × ℚ) : ℚ × ℚ :=
  ((M.h00 * p.1 + M.h01 * p.2 + M.h02) / (M.h20 * p.1 + M.h21 * p.2 + M.h22),
   (M.h10 * p.1 + M.h11 * p.2 + M.h12) / (M.h20 * p.1 + M.h21 * p.2 + M.h22))

/-- Determinant of a `Hom`. -/
def det (M : Hom) : ℚ :=
  M.h00 * (M.h11 * M.h22 - M.h12 * M.h21)
  - M.h01 * (M.h10 * M.h22 - M.h12 * M.h20)
  + M.h02 * (M.h10 * M.h21 - M.h11 * M.h20)

/-- Matrix inverse of a `Hom` (adjugate over determinant). -/
def invHom (M : Hom) : Hom :=
  ⟨(M.h11 * M.h22 - M.h12 * M.h21) / det M,
   (M.h02 * M.h21 - M.h01 * M.h22) / det M,
   (M.h01 * M.h12 - M.h02 * M.h11) / det M,
   (M.h12 * M.h20 - M.h10 * M.h22) / det M,
   (M.h00 * M.h22 - M.h02 * M.h20) / det M,
   (M.h02 * M.h10 - M.h00 * M.h12) / det M,
   (M.h10 * M.h21 - M.h11 * M.h20) / det M,
   (M.h01 * M.h20 - M.h00 * M.h21) / det M,
   (M.h00 * M.h11 - M.h01 * M.h10) / det M⟩

/-- Models `cv2.getPerspectiveTransform(src, dst)` by its defining property:
the returned matrix has lower-right entry 1 (the OpenCV solver fixes the
ninth unknown to 1) and maps each of the four source points to the
corresponding destination point. -/
def IsPerspectiveTransform (src dst : Fin 4 → ℚ × ℚ) (M : Hom) : Prop :=
  M.h22 = 1 ∧ ∀ i : Fin 4, applyHom M (src i) = dst i

/-- An image with explicit pixel dimensions; sampling is modelled on an
idealized continuous raster `pix : ℚ × ℚ → α` so that resampling through the
identity transform is exact. -/
structure SizedImage (α : Type) where
  width : ℕ
  height : ℕ
  pix : ℚ × ℚ → α

/-- Models `cv2.warpPerspective(img, M, dsize)`: the output image has exactly
the requested size `dsize`, and each output location samples the source at
the inverse-transformed coordinates. -/
def warpPerspective {α : Type} (img : SizedImage α) (M : Hom) (dsize : ℕ × ℕ) :
    SizedImage α :=
  ⟨dsize.1, dsize.2, fun p => img.pix (applyHom (invHom M) p)⟩

/-- Mutable state of the interactive session: the module-level `clicked`
buffer of manual_warp.py. -/
structure Session where
  clicked : List (ℤ × ℤ)
deriving DecidableEq

/-- Discrete input events driving the interactive loop of `main`
(manual_warp.py): a left-button click at `(x, y)` (`mouse_cb`), the `r` key
(reset), the Enter key (warp request), and the `q` key (quit). -/
inductive SessionEvent
  | click (x y : ℤ)
  | reset
  | enter
  | quit
deriving DecidableEq

/-- Result of one loop iteration: keep looping, exit without output, or exit
producing the warped image. -/
inductive StepOutcome (α : Type)
  | cont
  | quitExit
  | warped (out : SizedImage α)

/-- One iteration of the interactive loop of `main` (manual_warp.py) plus
`mouse_cb`, as a transition function on the click buffer.  `solve` stands for
`cv2.getPerspectiveTransform(src, dst)` applied to the clicked source points:
  * click: `mouse_cb` appends the point only when fewer than 4 are stored;
  * `r`: `clicked.clear()`;
  * `q`: return without warping;
  * Enter: if `len(clicked) != 4`, print a message and continue unchanged;
    otherwise solve the homography, warp into `(OUTPUT_SIZE, OUTPUT_SIZE)`
    and return. -/
def step {α : Type} (img : SizedImage α) (solve : List (ℤ × ℤ) → Hom)
    (st : Session) : SessionEvent → Session × StepOutcome α
  | .click x y =>
      if st.clicked.length < 4 then (⟨st.clicked ++ [(x, y)]⟩, .cont)
      else (st, .cont)
  | .reset => (⟨[]⟩, .cont)
  | .quit => (st, .quitExit)
  | .enter =>
      if st.clicked.length ≠ 4 then (st, .cont)
      else (st, .warped (warpPerspective img (solve st.clicked)
        (OUTPUT_SIZE, OUTPUT_SIZE)))

/-- The click-buffer state reached from the initial empty buffer after a
sequence of input events. -/
def run {α : Type} (img : SizedImage α) (solve : List (ℤ × ℤ) → Hom)
    (evs : List SessionEvent) : Session :=
  evs.foldl (fun st e => (step img solve st e).1) ⟨[]⟩

/-- Signed double area of the triangle `a b c`; zero iff the three points are
collinear. -/
def cross (a b c : ℤ × ℤ) : ℤ :=
  (b.1 - a.1) * (c.2 - a.2) - (b.2 - a.2) * (c.1 - a.1)

/-- A click list is a non-degenerate quadrilateral: exactly four points and no
three of them collinear. -/
def nonDegenerate : List (ℤ × ℤ) → Bool
  | [a, b, c, d] =>
      (cross a b c != 0) && (cross a b d != 0) &&
      (cross a c d != 0) && (cross b c d != 0)
  | _ => false

end ManualWarp

namespace Calibration

/-- `SQUARE_SIZE_M = 0.024` — physical square size in meters
(calibration.py). -/
def SQUARE_SIZE_M : ℚ := 0.024

/-- `PATTERNS_TO_TRY` — candidate inner-corner geometries, in priority order
(calibration.py). -/
def PATTERNS_TO_TRY : List (ℕ × ℕ) := [(7, 7), (8, 8), (9, 6), (10, 7), (11, 8)]

/-- Models Python `max(iterable, key=f)`: a left-to-right scan that replaces
the current best only when a later item's key is strictly greater, so the
earliest item attaining the maximal key is returned. -/
def pyMaxKey {α : Type} (f : α → ℕ) (best : α) : List α → α
  | [] => best
  | x :: xs => pyMaxKey f (if f best < f x then x else best) xs

/-- `best_pattern = max(pattern_success, key=lambda p: pattern_success[p])`
(calibration.py).  The dict `pattern_success` is built with keys inserted in
`PATTERNS_TO_TRY` order, so Python iterates them in that order. -/
def best_pattern (c : ℕ × ℕ → ℕ) : ℕ × ℕ :=
  match PATTERNS_TO_TRY with
  | [] => (0, 0)
  | p :: ps => pyMaxKey c p ps

/-- A detected corner set, as an ordered list of sub-pixel image points. -/
abbrev Corners : Type := List (ℚ × ℚ)

/-- `objp` (calibration.py): zeros of shape `(cols*rows, 3)` whose first two
columns are `np.mgrid[0:pattern[0], 0:pattern[1]].T.reshape(-1, 2)`, scaled
by `SQUARE_SIZE_M` — i.e. the points `(i·s, j·s, 0)` for `j < pattern.2`
(outer) and `i < pattern.1` (inner). -/
def objp (pattern : ℕ × ℕ) : List (ℚ × ℚ × ℚ) :=
  (List.range pattern.2).flatMap fun j =>
    (List.range pattern.1).map fun i =>
      ((i : ℚ) * SQUARE_SIZE_M, (j : ℚ) * SQUARE_SIZE_M, 0)

/-- Accumulator of the second (collection) pass of `main` (calibration.py):
the `objpoints` and `imgpoints` lists and the `good` counter. -/
structure CollectState where
  objpoints : List (List (ℚ × ℚ × ℚ))
  imgpoints : List Corners
  good : ℕ
deriving DecidableEq

/-- One iteration of the collection loop: an image that cannot be read or in
which no corners are found (`none`) is skipped; on success `objp` and the
detected corners are appended together and `good` is incremented. -/
def collectStep (pattern : ℕ × ℕ) (st : CollectState) :
    Option Corners → CollectState
  | none => st
  | some corners =>
      ⟨st.objpoints ++ [objp pattern], st.imgpoints ++ [corners], st.good + 1⟩

/-- The collection pass over the whole image list, given each image's
detection outcome. -/
def collect (pattern : ℕ × ℕ) (dets : List (Option Corners)) : CollectState :=
  dets.foldl (collectStep pattern) ⟨[], [], 0⟩

/-- Fatal calibration failures (calibration.py raises `RuntimeError`). -/
inductive CalibError
  | insufficientSamples (found : ℕ)
deriving DecidableEq

/-- The tail of `main` (calibration.py): run the collection pass, fail with
`InsufficientSamples` when `good < 3`, otherwise invoke the solver
(`cv2.calibrateCamera`, abstracted as the parameter `fit`) on the collected
point lists and return its RMS reprojection error. -/
def runCalibration (pattern : ℕ × ℕ) (dets : List (Option Corners))
    (fit : List (List (ℚ × ℚ × ℚ)) → List Corners → ℚ) : Except CalibError ℚ :=
  let st := collect pattern dets
  if st.good < 3 then .error (.insufficientSamples st.good)
  else .ok (fit st.objpoints st.imgpoints)

end Calibration

/-! ### Grid decomposer: naming bijection and cell geometry -/

/-- Claim C1: for board dimension N = 8, applying the grid decomposer's naming
function `square_name` to every cell (file_idx, rank_idx) with both indices
ranging over 0..7 yields exactly 64 pairwise-distinct algebraic names that
together cover exactly the standard label set {a1..h8} — the map is a
bijection onto the standard board labels. -/
theorem square_name_bijection :
    GridSlice.allNames.length = 64 ∧ GridSlice.allNames.Nodup ∧
    List.Perm GridSlice.allNames GridSlice.standardLabels :=
  ⟨by decide, by decide, by decide⟩

/-- Claim C2: with output size 1024, margin 136 and N = 8, the per-cell step
equals (1024 − 2·136)/8 = 94 pixels exactly, and the cell at file_idx = 0,
rank_idx = 7 (top row, leftmost file) spans image rows [136, 230):
ya = round(136 + (7−7)·94) = 136 and yb = round(136 + 1·94) = 230. -/
theorem top_left_cell_rows :
    GridSlice.step_y 1024 = 94 ∧ GridSlice.ya 1024 7 = 136 ∧
    GridSlice.yb 1024 7 = 230 := by
  refine ⟨?_, ?_, ?_⟩ <;>
    norm_num [GridSlice.step_y, GridSlice.board_h, GridSlice.y1, GridSlice.y0,
      GridSlice.MARGIN_PX, GridSlice.BOARD_N, GridSlice.ya, GridSlice.yb,
      GridSlice.pyRound, GridSlice.img_rank]

/-! ### Rectifier: destination quadrilateral (claim C5) -/

/-- Claim C5 (counterexample): the rectifier's destination quadrilateral is
not made of the corners of the inset square of the full output size — its
top-right point differs from (1024 − 136, 136) = (888, 136), because the code
uses `s = float(OUTPUT_SIZE - 1) = 1023`, giving (887, 136). -/
theorem dst_corner_ne_full_inset :
    ManualWarp.dstQuad 1 ≠ ((1024 : ℚ) - 136, 136) := by
  simp only [ManualWarp.dstQuad, Matrix.cons_val_one, Matrix.head_cons,
    ManualWarp.s, ManualWarp.m, ManualWarp.OUTPUT_SIZE, ManualWarp.MARGIN_PX,
    Prod.mk.injEq, not_and]
  norm_num

/-- Claim C5 (amended): with output size 1024 and margin 136 the rectifier
builds its destination quadrilateral from `s = OUTPUT_SIZE − 1 = 1023`: the
points are (136,136), (887,136), (887,887), (136,887) in TL/TR/BR/BL order —
the corners of the square [136, 887]², one pixel short of the inset region
[136, 888] that the grid decomposer later slices (x1 = y1 = 1024 − 136 =
888). -/
theorem dst_corner_values :
    ManualWarp.dstQuad 0 = (136, 136) ∧ ManualWarp.dstQuad 1 = (887, 136) ∧
    ManualWarp.dstQuad 2 = (887, 887) ∧ ManualWarp.dstQuad 3 = (136, 887) ∧
    GridSlice.x1 1024 = 1024 - 136 ∧ GridSlice.y1 1024 = 1024 - 136 := by
  refine ⟨?_, ?_, ?_, ?_, ?_, ?_⟩ <;>
    norm_num [ManualWarp.dstQuad, Matrix.cons_val_zero, Matrix.cons_val_one,
      Matrix.head_cons, Matrix.cons_val_two, Matrix.tail_cons,
      Matrix.cons_val_three, ManualWarp.s, ManualWarp.m,
      ManualWarp.OUTPUT_SIZE, ManualWarp.MARGIN_PX, GridSlice.x1,
      GridSlice.y1, GridSlice.MARGIN_PX, Prod.ext_iff]

/-! ### Rectifier: interactive session state machine -/

namespace ManualWarp

/-- Auxiliary: one step of the session never grows the click buffer beyond
four points. -/
lemma step_clicked_le {α : Type} (img : SizedImage α)
    (solve : List (ℤ × ℤ) → Hom) (st : Session) (e : SessionEvent)
    (h : st.clicked.length ≤ 4) :
    ((step img solve st e).1).clicked.length ≤ 4 := by
  cases e <;> simp only [step] <;>
    first
      | (split <;> simp_all <;> omega)
      | simp_all

/-- Auxiliary: the invariant `length ≤ 4` propagates through any fold of
session steps. -/
lemma foldl_step_clicked_le {α : Type} (img : SizedImage α)
    (solve : List (ℤ × ℤ) → Hom) (evs : List SessionEvent) (st : Session)
    (h : st.clicked.length ≤ 4) :
    (evs.foldl (fun st e => (step img solve st e).1) st).clicked.length ≤ 4 := by
  induction evs generalizing st with
  | nil => exact h
  | cons e evs ih =>
      exact ih _ (step_clicked_le img solve st e h)

end ManualWarp

/-- Claim C9: invariant of the interactive rectification session — a
point-added event appends exactly when the buffer holds fewer than 4 points
(and is otherwise ignored), the reset event empties the buffer, and after any
sequence of events starting from the empty buffer the click buffer never
holds more than 4 points. -/
theorem click_buffer_invariant {α : Type} (img : ManualWarp.SizedImage α)
    (solve : List (ℤ × ℤ) → ManualWarp.Hom) :
    (∀ (st : ManualWarp.Session) (x y : ℤ), st.clicked.length < 4 →
      ((ManualWarp.step img solve st (.click x y)).1).clicked
        = st.clicked ++ [(x, y)]) ∧
    (∀ (st : ManualWarp.Session) (x y : ℤ), ¬ st.clicked.length < 4 →
      (ManualWarp.step img solve st (.click x y)).1 = st) ∧
    (∀ st : ManualWarp.Session,
      ((ManualWarp.step img solve st .reset).1).clicked = []) ∧
    (∀ evs : List ManualWarp.SessionEvent,
      (ManualWarp.run img solve evs).clicked.length ≤ 4) := by
  refine ⟨?_, ?_, ?_, ?_⟩
  · intro st x y h; simp [ManualWarp.step, h]
  · intro st x y h; simp [ManualWarp.step, h]
  · intro st; simp [ManualWarp.step]
  · intro evs
    exact ManualWarp.foldl_step_clicked_le img solve evs ⟨[]⟩ (by simp)

/-- Witness for C9 at concrete inputs: one click on an empty buffer appends
it, and a concrete click/reset/enter event sequence leaves at most 4 points
in the buffer. -/
theorem click_buffer_invariant_witness :
    ((ManualWarp.step (α := ℚ) ⟨640, 480, fun _ => 0⟩ (fun _ => ManualWarp.idHom)
        ⟨[]⟩ (.click 5 7)).1).clicked = [] ++ [(5, 7)] ∧
    (ManualWarp.run (α := ℚ) ⟨640, 480, fun _ => 0⟩ (fun _ => ManualWarp.idHom)
        [.click 1 1, .click 2 2, .reset, .click 3 3, .enter]).clicked.length ≤ 4 := by
  constructor
  · exact (click_buffer_invariant ⟨640, 480, fun _ => 0⟩
      (fun _ => ManualWarp.idHom)).1 ⟨[]⟩ 5 7 (by simp)
  · exact (click_buffer_invariant ⟨640, 480, fun _ => 0⟩
      (fun _ => ManualWarp.idHom)).2.2.2 [.click 1 1, .click 2 2, .reset, .click 3 3, .enter]

/-- Claim C7: when a warp is requested with a click count other than 4, the
rectifier refuses — no homography is solved, no output image is produced, the
state is unchanged and the session continues; and conversely a warped output
is produced only from an Enter event with exactly 4 clicks, leaving the state
unchanged. -/
theorem rectifier_rejects_bad_clickset {α : Type} (img : ManualWarp.SizedImage α)
    (solve : List (ℤ × ℤ) → ManualWarp.Hom) :
    (∀ st : ManualWarp.Session, st.clicked.length ≠ 4 →
      ManualWarp.step img solve st .enter = (st, .cont)) ∧
    (∀ (st st' : ManualWarp.Session) (e : ManualWarp.SessionEvent)
        (out : ManualWarp.SizedImage α),
      ManualWarp.step img solve st e = (st', .warped out) →
      st.clicked.length = 4 ∧ e = .enter ∧ st' = st) := by
  constructor
  · intro st h; simp [ManualWarp.step, h]
  · intro st st' e out h
    cases e <;> simp only [ManualWarp.step] at h
    · split at h <;> simp_all
    · simp_all
    · by_cases h4 : st.clicked.length = 4
      · simp only [h4] at h; simp_all
      · simp [h4] at h
    · simp_all

/-- Witness for C7: with three concrete clicks stored, Enter leaves the
session unchanged and continues. -/
theorem rectifier_rejects_bad_clickset_witness :
    ManualWarp.step (α := ℚ) ⟨640, 480, fun _ => 0⟩ (fun _ => ManualWarp.idHom)
      ⟨[(0, 0), (10, 0), (10, 10)]⟩ .enter
      = (⟨[(0, 0), (10, 0), (10, 10)]⟩, .cont) :=
  (rectifier_rejects_bad_clickset ⟨640, 480, fun _ => 0⟩
    (fun _ => ManualWarp.idHom)).1 ⟨[(0, 0), (10, 0), (10, 10)]⟩ (by simp)

/-- Claim C6: for every click set of exactly 4 points forming a non-degenerate
quadrilateral, and every input image (of any size), the rectifier's output
image has exactly the configured output size 1024 × 1024. -/
theorem rectifier_output_size {α : Type} (img : ManualWarp.SizedImage α)
    (solve : List (ℤ × ℤ) → ManualWarp.Hom) (st : ManualWarp.Session)
    (h4 : st.clicked.length = 4)
    (_hnd : ManualWarp.nonDegenerate st.clicked = true) :
    ∃ out, ManualWarp.step img solve st .enter = (st, .warped out) ∧
      out.width = 1024 ∧ out.height = 1024 := by
  refine ⟨ManualWarp.warpPerspective img (solve st.clicked)
    (ManualWarp.OUTPUT_SIZE, ManualWarp.OUTPUT_SIZE), ?_, rfl, rfl⟩
  simp [ManualWarp.step, h4]

/-- Witness for C6: a concrete 640 × 480 input image and the four concrete
corner clicks (136,136), (887,136), (887,887), (136,887) yield a 1024 × 1024
output. -/
theorem rectifier_output_size_witness :
    ∃ out, ManualWarp.step (α := ℚ) ⟨640, 480, fun _ => 0⟩
        (fun _ => ManualWarp.idHom)
        ⟨[(136, 136), (887, 136), (887, 887), (136, 887)]⟩ .enter
        = (⟨[(136, 136), (887, 136), (887, 887), (136, 887)]⟩, .warped out) ∧
      out.width = 1024 ∧ out.height = 1024 :=
  rectifier_output_size ⟨640, 480, fun _ => 0⟩ (fun _ => ManualWarp.idHom)
    ⟨[(136, 136), (887, 136), (887, 887), (136, 887)]⟩ (by simp) (by decide)

/-! ### Geometry selector: first-maximum tie-breaking -/

namespace Calibration

/-- Auxiliary: `pyMaxKey f a l` splits `a :: l` into a strict-smaller part, the
selected element, and a remainder, with the selected element's key maximal
over the whole list — exactly Python's `max` semantics of returning the
earliest item attaining the maximal key. -/
lemma pyMaxKey_spec {α : Type} (f : α → ℕ) (a : α) (l : List α) :
    ∃ l1 l2, a :: l = l1 ++ pyMaxKey f a l :: l2 ∧
      (∀ x ∈ l1, f x < f (pyMaxKey f a l)) ∧
      (∀ x ∈ a :: l, f x ≤ f (pyMaxKey f a l)) := by
  induction l generalizing a with
  | nil => exact ⟨[], [], rfl, by simp, by simp [pyMaxKey]⟩
  | cons x xs ih =>
      by_cases hax : f a < f x
      · have hb : pyMaxKey f a (x :: xs) = pyMaxKey f x xs := by
          simp [pyMaxKey, hax]
        obtain ⟨l1, l2, hsplit, hlt, hle⟩ := ih x
        rw [hb]
        refine ⟨a :: l1, l2, ?_, ?_, ?_⟩
        · rw [List.cons_append, ← hsplit]
        · intro y hy
          rcases List.mem_cons.mp hy with rfl | hy'
          · exact lt_of_lt_of_le hax (hle x (List.mem_cons_self x xs))
          · exact hlt y hy'
        · intro y hy
          rcases List.mem_cons.mp hy with rfl | hy'
          · exact le_of_lt (lt_of_lt_of_le hax (hle x (List.mem_cons_self x xs)))
          · exact hle y hy'
      · have hb : pyMaxKey f a (x :: xs) = pyMaxKey f a xs := by
          simp [pyMaxKey, hax]
        obtain ⟨l1, l2, hsplit, hlt, hle⟩ := ih a
        rw [hb]
        cases l1 with
        | nil =>
            simp only [List.nil_append] at hsplit
            injection hsplit with h1 h2
            rw [← h1]
            refine ⟨[], x :: xs, rfl, by simp, ?_⟩
            intro y hy
            rcases List.mem_cons.mp hy with rfl | hy'
            · exact le_refl _
            rcases List.mem_cons.mp hy' with rfl | hy''
            · exact le_of_not_lt hax
            · have hm := hle y (List.mem_cons_of_mem a hy'')
              rw [← h1] at hm
              exact hm
        | cons a' l1' =>
            injection hsplit with h1 h2
            have hfa : f a < f (pyMaxKey f a xs) := by
              have hm := hlt a' (List.mem_cons_self a' l1')
              rw [← h1] at hm
              exact hm
            refine ⟨a :: x :: l1', l2, ?_, ?_, ?_⟩
            · exact congrArg (fun t => a :: x :: t) h2
            · intro y hy
              rcases List.mem_cons.mp hy with rfl | hy'
              · exact hfa
              rcases List.mem_cons.mp hy' with rfl | hy''
              · exact lt_of_le_of_lt (le_of_not_lt hax) hfa
              · exact hlt y (List.mem_cons_of_mem a' hy'')
            · intro y hy
              rcases List.mem_cons.mp hy with h | hy'
              · rw [h]
                exact hle a (List.mem_cons_self a xs)
              rcases List.mem_cons.mp hy' with h | hy''
              · rw [h]
                exact le_trans (le_of_not_lt hax) (hle a (List.mem_cons_self a xs))
              · exact hle y (List.mem_cons_of_mem a hy'')

end Calibration

/-- Claim C3: for every assignment of per-geometry success counts in which no
geometry is forced and at least one count is nonzero, the geometry selector
picks a candidate with the maximal success count (in particular nonzero, so
the detection-exhausted error is not raised), and every candidate listed
before the selected one in `PATTERNS_TO_TRY` has a strictly smaller count —
so a tie at the maximal nonzero count goes to the earliest candidate. -/
theorem geometry_selector_first_max (c : ℕ × ℕ → ℕ)
    (hnz : ∃ p ∈ Calibration.PATTERNS_TO_TRY, 0 < c p) :
    Calibration.best_pattern c ∈ Calibration.PATTERNS_TO_TRY ∧
    0 < c (Calibration.best_pattern c) ∧
    (∀ p ∈ Calibration.PATTERNS_TO_TRY, c p ≤ c (Calibration.best_pattern c)) ∧
    ∃ l1 l2,
      Calibration.PATTERNS_TO_TRY = l1 ++ Calibration.best_pattern c :: l2 ∧
      ∀ p ∈ l1, c p < c (Calibration.best_pattern c) := by
  have hbp : Calibration.best_pattern c
      = Calibration.pyMaxKey c (7, 7) [(8, 8), (9, 6), (10, 7), (11, 8)] := rfl
  have hPT : Calibration.PATTERNS_TO_TRY
      = (7, 7) :: [(8, 8), (9, 6), (10, 7), (11, 8)] := rfl
  obtain ⟨l1, l2, hsplit, hlt, hle⟩ :=
    Calibration.pyMaxKey_spec c (7, 7) [(8, 8), (9, 6), (10, 7), (11, 8)]
  rw [hbp, hPT]
  refine ⟨?_, ?_, ?_, l1, l2, hsplit, hlt⟩
  · rw [hsplit]
    exact List.mem_append.mpr (Or.inr (List.mem_cons_self _ _))
  · obtain ⟨p, hp, hpc⟩ := hnz
    rw [hPT] at hp
    exact lt_of_lt_of_le hpc (hle p hp)
  · exact hle

/-- Success-count assignment exercising the tie-break: geometries (8, 8) and
(9, 6) share the maximal nonzero count 3. -/
def tieCounts : ℕ × ℕ → ℕ :=
  fun p => if p = (8, 8) ∨ p = (9, 6) then 3 else 0

/-- Witness for C3 at the concrete tied counts: some count is nonzero, the
selected geometry is a candidate with nonzero count, and it is (8, 8) — the
earlier of the two tied geometries. -/
theorem geometry_selector_first_max_witness :
    (∃ p ∈ Calibration.PATTERNS_TO_TRY, 0 < tieCounts p) ∧
    Calibration.best_pattern tieCounts ∈ Calibration.PATTERNS_TO_TRY ∧
    0 < tieCounts (Calibration.best_pattern tieCounts) ∧
    Calibration.best_pattern tieCounts = (8, 8) :=
  ⟨by decide, (geometry_selector_first_max tieCounts (by decide)).1,
   (geometry_selector_first_max tieCounts (by decide)).2.1, by decide⟩

/-! ### Intrinsics solver: minimum-sample boundary and collection invariant -/

/-- Claim C8: the calibration run takes the fatal InsufficientSamples branch
if and only if fewer than 3 samples survive — with fewer than 3 the error is
raised before any fit is attempted (the result does not depend on the solver
at all), and with 3 or more the solver is invoked on the collected point
lists and its RMS error is returned. -/
theorem min_sample_boundary (pattern : ℕ × ℕ)
    (dets : List (Option Calibration.Corners))
    (fit fit' : List (List (ℚ × ℚ × ℚ)) → List Calibration.Corners → ℚ) :
    ((Calibration.collect pattern dets).good < 3 →
      Calibration.runCalibration pattern dets fit
        = .error (.insufficientSamples (Calibration.collect pattern dets).good) ∧
      Calibration.runCalibration pattern dets fit
        = Calibration.runCalibration pattern dets fit') ∧
    (3 ≤ (Calibration.collect pattern dets).good →
      Calibration.runCalibration pattern dets fit
        = .ok (fit (Calibration.collect pattern dets).objpoints
            (Calibration.collect pattern dets).imgpoints)) := by
  constructor
  · intro h
    constructor <;> simp [Calibration.runCalibration, h]
  · intro h
    simp [Calibration.runCalibration, Nat.not_lt.mpr h]

/-- Witness for C8 at concrete inputs: with exactly 2 surviving samples the
run fails with InsufficientSamples 2 (for any solver), and with exactly 3 it
returns the solver's RMS value. -/
theorem min_sample_boundary_witness :
    Calibration.runCalibration (7, 7) [some [], some []] (fun _ _ => 0)
      = .error (.insufficientSamples 2) ∧
    Calibration.runCalibration (7, 7) [some [], some [], some []]
      (fun _ _ => 37) = .ok 37 :=
  ⟨((min_sample_boundary (7, 7) [some [], some []]
      (fun _ _ => 0) (fun _ _ => 1)).1 (by decide)).1,
   (min_sample_boundary (7, 7) [some [], some [], some []]
      (fun _ _ => 37) (fun _ _ => 37)).2 (by decide)⟩

namespace Calibration

/-- Auxiliary: the collection-pass invariant is preserved by folding
`collectStep` from any state that satisfies it. -/
lemma collect_fold_invariant (pattern : ℕ × ℕ)
    (dets : List (Option Corners)) (st : CollectState)
    (h1 : st.objpoints.length = st.imgpoints.length)
    (h2 : st.objpoints.length = st.good)
    (h3 : ∀ o ∈ st.objpoints, o = objp pattern) :
    (dets.foldl (collectStep pattern) st).objpoints.length
      = (dets.foldl (collectStep pattern) st).imgpoints.length ∧
    (dets.foldl (collectStep pattern) st).objpoints.length
      = (dets.foldl (collectStep pattern) st).good ∧
    ∀ o ∈ (dets.foldl (collectStep pattern) st).objpoints, o = objp pattern := by
  induction dets generalizing st with
  | nil => exact ⟨h1, h2, h3⟩
  | cons d ds ih =>
      cases d with
      | none => exact ih st h1 h2 h3
      | some corners =>
          refine ih ⟨st.objpoints ++ [objp pattern],
            st.imgpoints ++ [corners], st.good + 1⟩ ?_ ?_ ?_
          · simp [h1]
          · simp [h2]
          · intro o ho
            rcases List.mem_append.mp ho with ho' | ho'
            · exact h3 o ho'
            · simpa using ho'

end Calibration

/-- Claim C10: invariant of the calibration collection pass — after processing
any list of per-image detection outcomes, the object-point list and the
image-point list have equal length, that length equals the `good` success
counter passed to the minimum-sample check, and every element of the
object-point list is the fixed object-point grid `objp` for the chosen
geometry (already scaled by the physical square size). -/
theorem collection_pass_invariant (pattern : ℕ × ℕ)
    (dets : List (Option Calibration.Corners)) :
    (Calibration.collect pattern dets).objpoints.length
      = (Calibration.collect pattern dets).imgpoints.length ∧
    (Calibration.collect pattern dets).objpoints.length
      = (Calibration.collect pattern dets).good ∧
    ∀ o ∈ (Calibration.collect pattern dets).objpoints,
      o = Calibration.objp pattern :=
  Calibration.collect_fold_invariant pattern dets ⟨[], [], 0⟩ rfl rfl
    (by intro o ho; simp at ho)

/-! ### Rectifier: canonical round trip (claim C4) -/

namespace ManualWarp

/-- Auxiliary: the top-left destination corner. -/
lemma dstQuad_zero : dstQuad 0 = (136, 136) := by
  norm_num [dstQuad, m, s, OUTPUT_SIZE, MARGIN_PX]

/-- Auxiliary: the top-right destination corner. -/
lemma dstQuad_one : dstQuad 1 = (887, 136) := by
  norm_num [dstQuad, m, s, OUTPUT_SIZE, MARGIN_PX]

/-- Auxiliary: the bottom-right destination corner. -/
lemma dstQuad_two : dstQuad 2 = (887, 887) := by
  norm_num [dstQuad, m, s, OUTPUT_SIZE, MARGIN_PX, Matrix.cons_val_two,
    Matrix.tail_cons]

/-- Auxiliary: the bottom-left destination corner. -/
lemma dstQuad_three : dstQuad 3 = (136, 887) := by
  norm_num [dstQuad, m, s, OUTPUT_SIZE, MARGIN_PX, Matrix.cons_val_three,
    Matrix.tail_cons]

/-- Auxiliary: applying the identity homography is the identity map. -/
lemma applyHom_idHom (p : ℚ × ℚ) : applyHom idHom p = p := by
  simp [applyHom, idHom]

/-- Auxiliary: the inverse of the identity homography is itself. -/
lemma invHom_idHom : invHom idHom = idHom := by
  norm_num [invHom, det, idHom]

/-- Auxiliary: the identity homography fixes the destination quadrilateral,
so it satisfies the solver's defining constraints for `src = dst = dstQuad`. -/
lemma idHom_transform : IsPerspectiveTransform dstQuad dstQuad idHom :=
  ⟨rfl, fun _ => applyHom_idHom _⟩

/-- Auxiliary: a division equation with a nonzero value forces a nonzero
denominator and can be cleared. -/
lemma div_eq_const {x y v : ℚ} (hv : v ≠ 0) (hxy : x / y = v) :
    x = v * y := by
  have hy : y ≠ 0 := by
    intro h0
    rw [h0, div_zero] at hxy
    exact hv hxy.symm
  exact (div_eq_iff hy).mp hxy

/-- Auxiliary: the perspective-transform constraints for `src = dst = dstQuad`
pin the solution down to the identity — the four destination corners are in
general position, so the 8×8 linear system they induce is nonsingular. -/
lemma transform_fixing_dstQuad_eq_id (M : Hom)
    (hM : IsPerspectiveTransform dstQuad dstQuad M) : M = idHom := by
  obtain ⟨h22, hpt⟩ := hM
  obtain ⟨a, b, c, d, e, f, g, h, i⟩ := M
  have hi : i = 1 := h22
  subst hi
  have e0 := hpt 0
  have e1 := hpt 1
  have e2 := hpt 2
  have e3 := hpt 3
  rw [dstQuad_zero] at e0
  rw [dstQuad_one] at e1
  rw [dstQuad_two] at e2
  rw [dstQuad_three] at e3
  simp only [applyHom, Prod.mk.injEq] at e0 e1 e2 e3
  obtain ⟨e0x, e0y⟩ := e0
  obtain ⟨e1x, e1y⟩ := e1
  obtain ⟨e2x, e2y⟩ := e2
  obtain ⟨e3x, e3y⟩ := e3
  have E0x := div_eq_const (by norm_num) e0x
  have E0y := div_eq_const (by norm_num) e0y
  have E1x := div_eq_const (by norm_num) e1x
  have E1y := div_eq_const (by norm_num) e1y
  have E2x := div_eq_const (by norm_num) e2x
  have E2y := div_eq_const (by norm_num) e2y
  have E3x := div_eq_const (by norm_num) e3x
  have E3y := div_eq_const (by norm_num) e3y
  simp only [Hom.mk.injEq, idHom]
  refine ⟨?_, ?_, ?_, ?_, ?_, ?_, ?_, ?_, trivial⟩ <;> linarith [E0x, E0y,
    E1x, E1y, E2x, E2y, E3x, E3y]

end ManualWarp

/-- Claim C4: rectifying an already-canonical image using as the ClickSet the
four corners of its own margin-inset square — the rectifier's destination
quadrilateral, in TL/TR/BR/BL order — yields the identity homography, and
resampling through it reproduces the image exactly at every location (so in
particular within interpolation tolerance). -/
theorem canonical_round_trip (M : ManualWarp.Hom)
    (hM : ManualWarp.IsPerspectiveTransform ManualWarp.dstQuad
      ManualWarp.dstQuad M) :
    M = ManualWarp.idHom ∧
    ∀ (α : Type) (img : ManualWarp.SizedImage α) (p : ℚ × ℚ),
      (ManualWarp.warpPerspective img M
        (ManualWarp.OUTPUT_SIZE, ManualWarp.OUTPUT_SIZE)).pix p = img.pix p := by
  have hMid := ManualWarp.transform_fixing_dstQuad_eq_id M hM
  subst hMid
  refine ⟨rfl, ?_⟩
  intro α img p
  simp [ManualWarp.warpPerspective, ManualWarp.invHom_idHom,
    ManualWarp.applyHom_idHom]

/-- Witness for C4: the identity homography satisfies the solver constraints
for clicking the four inset-square corners of a canonical image, it is the
(unique) solution, and warping a concrete coordinate image through it leaves
a sample point unchanged. -/
theorem canonical_round_trip_witness :
    ManualWarp.IsPerspectiveTransform ManualWarp.dstQuad ManualWarp.dstQuad
      ManualWarp.idHom ∧
    ManualWarp.idHom = ManualWarp.idHom ∧
    (ManualWarp.warpPerspective (α := ℚ × ℚ) ⟨1024, 1024, fun q => q⟩
      ManualWarp.idHom (ManualWarp.OUTPUT_SIZE, ManualWarp.OUTPUT_SIZE)).pix
      (500, 500) = (500, 500) :=
  ⟨ManualWarp.idHom_transform,
   (canonical_round_trip ManualWarp.idHom ManualWarp.idHom_transform).1,
   (canonical_round_trip ManualWarp.idHom ManualWarp.idHom_transform).2
     (ℚ × ℚ) ⟨1024, 1024, fun q => q⟩ (500, 500)⟩
